import Mathlib

/-!
A shallow embedding of `dfdewey/datastore/elastic.py` (class
`ElasticsearchDataStore`) and proofs about its behaviour.

Modelling conventions:

* Python strings and bytes objects are modelled by `PyStr`: `PyStr.text s`
  is the `str` value `s`, and `PyStr.binary s` is the `bytes` object whose
  UTF-8 decoding is `s` (all byte strings fed to `codecs.decode(_, 'utf8')`
  by this module are assumed valid UTF-8, which the model makes total by
  carrying the decoded text).
* A Python event dict is an insertion-ordered association list
  `Event = List (PyStr × PyStr)` with distinct keys; `dict[k] = v`
  replaces the value at the first matching key and otherwise appends.
* Python dicts are heap objects passed by reference.  We model the heap as
  `List Event` indexed by `Ref = Nat`, so that in-place mutation of the
  caller's dict, and aliasing between the caller's dict and the pending
  buffer, are expressible.
* Exceptions are modelled by `Except PyErr`.  A raised exception discards
  the partially mutated state in the model; no claim inspects the state
  after an exception.
* `self.client.bulk(body=...)` is modelled by recording the request body in
  the trace `bulk_calls`; `self.client.indices` is modelled by `ESClient`.
-/

/-- A Python `str` (`text`) or `bytes` (`binary`) value; a `bytes` value is
represented by its UTF-8 decoding. -/
inductive PyStr where
  | text (s : String)
  | binary (s : String)
deriving DecidableEq, Repr

/-- `isinstance(x, six.text_type)` for a string-like value. -/
def isText : PyStr → Bool
  | .text _ => true
  | .binary _ => false

/-- The decode-to-text step of `import_event` / `create_index`:
`if not isinstance(k, six.text_type): k = codecs.decode(k, 'utf8')` for keys
and index names, and `if isinstance(v, six.binary_type): v = codecs.decode(v,
'utf8')` for values.  On the two-constructor `PyStr` both checks reduce to the
same function: a `binary` value is decoded, a `text` value is kept. -/
def ensure_text : PyStr → PyStr
  | .text s => .text s
  | .binary s => .text s

/-- Python truthiness of a string-like value: `''` and `b''` are falsy. -/
def strTruthy : PyStr → Bool
  | .text s => !s.isEmpty
  | .binary s => !s.isEmpty

/-- Python truthiness of an optional string-like value (`None` is falsy). -/
def optStrTruthy : Option PyStr → Bool
  | none => false
  | some s => strTruthy s

/-- A Python event dict: insertion-ordered association list. -/
abbrev Event := List (PyStr × PyStr)

/-- A reference to a dict on the heap. -/
abbrev Ref := Nat

/-- `dict[k] = v`: replace the value at the first matching key, or append a
new entry (Python keeps the original key object on replacement, which is
equal to the new one). -/
def dictSet : Event → PyStr → PyStr → Event
  | [], k, v => [(k, v)]
  | kv :: rest, k, v => if kv.1 = k then (k, v) :: rest else kv :: dictSet rest k v

/-- `dict.get(k)`: value at the first matching key, else `None`. -/
def dictGet : Event → PyStr → Option PyStr
  | [], _ => none
  | kv :: rest, k => if kv.1 = k then some kv.2 else dictGet rest k

/-- The dict read by `r` on the heap (`[]` if the reference is dangling,
which never arises from the Python program). -/
def getEvent (heap : List Event) (r : Ref) : Event := heap.getD r []

/-- Python exceptions raised by the embedded code. -/
inductive PyErr where
  | runtimeError (msg : String)
  | zeroDivisionError
  | connectionError (msg : String)
deriving DecidableEq, Repr

/-- The key/value normalization loop of `import_event`:
`for k, v in event.items(): ...; event[k] = v`, iterating the live dict view
by position.  `i` is the current position and `todo` the number of remaining
iterations (`ev.length` at entry; CPython raises
`RuntimeError('dictionary changed size during iteration')` as soon as the
assignment `event[k] = v` inserts a new key, so the dict's size is constant
over every completed iteration). -/
def norm_go : Event → Nat → Nat → Except PyErr Event
  | ev, _, 0 => .ok ev
  | ev, i, todo + 1 =>
    match ev[i]? with
    | none => .ok ev
    | some kv =>
      let ev' := dictSet ev (ensure_text kv.1) (ensure_text kv.2)
      if ev'.length = ev.length then norm_go ev' (i + 1) todo
      else .error (.runtimeError "dictionary changed size during iteration")

/-- The whole normalization pass over an event dict (lines 93–102 of
`elastic.py`). -/
def normalize_event (ev : Event) : Except PyErr Event := norm_go ev 0 ev.length

/-- Does the normalization pass of `import_event` complete without raising?
`false` exactly when the loop raises the mutation-during-iteration
`RuntimeError` (see the C2 development below); executable, used to state
which calls complete. -/
def norm_ok (ev : Event) : Bool :=
  match normalize_event ev with
  | .ok _ => true
  | .error _ => false

/-- One entry of the bulk-request body.  Headers are dict literals built by
`import_event`; payloads are references to (wrappers of) the caller's event
dict: `plain r` is the event itself appended unwrapped, `doc r` is
`{'doc': event}` and `script r` is `{'script': event}`. -/
inductive Entry where
  | indexHeader (index_name : PyStr)
  | updateHeader (index_name : PyStr) (event_id : Option PyStr)
  | plain (r : Ref)
  | doc (r : Ref)
  | script (r : Ref)
deriving DecidableEq, Repr

/-- The instruction header queued by `import_event` (lines 104–124): the
`update` header when `event_id` is truthy, the `index` header otherwise. -/
def bulk_header (index_name : PyStr) (event_id : Option PyStr) : Entry :=
  if optStrTruthy event_id then Entry.updateHeader index_name event_id
  else Entry.indexHeader index_name

/-- The payload entry queued by `import_event` for the (already normalized)
event dict `ev'` referenced by `r` (lines 117–126): wrapped as
`{'script': event}` when a truthy `event_id` is given and `event.get('lang')`
is truthy, as `{'doc': event}` when a truthy `event_id` is given otherwise,
and the bare event reference when no truthy `event_id` is given. -/
def bulk_payload (r : Ref) (event_id : Option PyStr) (ev' : Event) : Entry :=
  if optStrTruthy event_id then
    if optStrTruthy (dictGet ev' (PyStr.text "lang")) then Entry.script r
    else Entry.doc r
  else Entry.plain r

/-- The mutable state of an `ElasticsearchDataStore` that `import_event`
touches: `import_counter` is `self.import_counter['events']` (the only key
ever used of the `collections.Counter`), `import_events` is
`self.import_events`, and `bulk_calls` is the trace of bodies passed to
`self.client.bulk`, oldest first. -/
structure ElasticsearchDataStore where
  import_counter : Nat
  import_events : List Entry
  bulk_calls : List (List Entry)
deriving DecidableEq, Repr

/-- A freshly constructed store: `Counter()` and `[]`, no bulk call issued. -/
def freshStore : ElasticsearchDataStore := ⟨0, [], []⟩

/-- The `else` branch of `import_event` (lines 132–136): bulk-write whatever
is queued, without clearing the queue, and leave the counter alone. -/
def flush_remaining (heap : List Event) (s : ElasticsearchDataStore) :
    Except PyErr (List Event × ElasticsearchDataStore × Nat) :=
  if s.import_events.isEmpty then .ok (heap, s, s.import_counter)
  else .ok (heap, { s with bulk_calls := s.bulk_calls ++ [s.import_events] },
            s.import_counter)

/-- `ElasticsearchDataStore.import_event` (lines 79–137 of `elastic.py`).
`event` is a reference to the caller's event dict (or `None`);
`flush_interval` is the value after Python's `int(...)` conversion.  The
returned `Nat` is the Python return value `self.import_counter['events']`.
The Python modulo test `counter % int(flush_interval) == 0` raises
`ZeroDivisionError` when the interval is `0` and otherwise agrees with
`(counter : Int) % flush_interval = 0` (for a nonnegative counter, both
Python's `%` and `Int.emod` are zero exactly on multiples). -/
def import_event (heap : List Event) (s : ElasticsearchDataStore)
    (index_name : PyStr) (event : Option Ref) (event_id : Option PyStr)
    (flush_interval : Int) :
    Except PyErr (List Event × ElasticsearchDataStore × Nat) :=
  match event with
  | none => flush_remaining heap s
  | some r =>
    if (getEvent heap r).isEmpty then flush_remaining heap s
    else
      match normalize_event (getEvent heap r) with
      | .error e => .error e
      | .ok ev' =>
        if flush_interval = 0 then Except.error PyErr.zeroDivisionError
        else if ((s.import_counter + 1 : Nat) : Int) % flush_interval = 0 then
          Except.ok (heap.set r ev',
            { import_counter := s.import_counter + 1
              import_events := []
              bulk_calls := s.bulk_calls ++
                [s.import_events ++
                  [bulk_header index_name event_id, bulk_payload r event_id ev']] },
            s.import_counter + 1)
        else
          Except.ok (heap.set r ev',
            { import_counter := s.import_counter + 1
              import_events := s.import_events ++
                [bulk_header index_name event_id, bulk_payload r event_id ev']
              bulk_calls := s.bulk_calls },
            s.import_counter + 1)

/-- The index-management side of `self.client`: the set of existing indices,
whether the backend is reachable (`connected = false` makes
`indices.create` / `indices.delete` raise `ConnectionError` with message
`conn_msg`), and how many create/delete requests were issued. -/
structure ESClient where
  indices : List PyStr
  connected : Bool
  conn_msg : String
  create_calls : Nat
  delete_calls : Nat
deriving DecidableEq, Repr

/-- `ElasticsearchDataStore.create_index` (lines 45–64 of `elastic.py`). -/
def create_index (c : ESClient) (index_name : PyStr) :
    Except PyErr (ESClient × PyStr) :=
  if index_name ∈ c.indices then Except.ok (c, ensure_text index_name)
  else if c.connected then
    Except.ok ({ c with
                 indices := c.indices ++ [index_name]
                 create_calls := c.create_calls + 1 }, ensure_text index_name)
  else Except.error (PyErr.runtimeError "Unable to connect to backend datastore.")

/-- `ElasticsearchDataStore.delete_index` (lines 66–77 of `elastic.py`). -/
def delete_index (c : ESClient) (index_name : PyStr) : Except PyErr ESClient :=
  if index_name ∈ c.indices then
    if c.connected then
      Except.ok { c with
                  indices := c.indices.erase index_name
                  delete_calls := c.delete_calls + 1 }
    else
      Except.error (PyErr.runtimeError
        ("Unable to connect to backend datastore: " ++ c.conn_msg))
  else Except.ok c

/-- The header/payload pairs queued by a sequence of index-mode (no
`event_id`) imports of the events referenced by `rs`. -/
def queuedEntries (idx : PyStr) : List Ref → List Entry
  | [] => []
  | r :: rest => Entry.indexHeader idx :: Entry.plain r :: queuedEntries idx rest

/-- Call `import_event` once per reference in `rs` (index mode, no
`event_id`), threading heap and store; used to state the repeated-call
claims. -/
def import_n (heap : List Event) (s : ElasticsearchDataStore) (idx : PyStr)
    (rs : List Ref) (fi : Int) :
    Except PyErr (List Event × ElasticsearchDataStore × Nat) :=
  match rs with
  | [] => .ok (heap, s, s.import_counter)
  | r :: rest =>
    match import_event heap s idx (some r) none fi with
    | .error e => .error e
    | .ok (h', s', _) => import_n h' s' idx rest fi

/-- Between states `s` and `s'`, exactly the pair `hdr, pl` was appended to
the pending buffer, in that order: either it is still queued at the end of
the buffer, or the auto-flush sent the whole buffer (ending in that pair) as
the body of one new bulk request and cleared the buffer. -/
def appendedPair (s s' : ElasticsearchDataStore) (hdr pl : Entry) : Prop :=
  (s'.import_events = s.import_events ++ [hdr, pl] ∧
      s'.bulk_calls = s.bulk_calls) ∨
  (s'.import_events = [] ∧
      s'.bulk_calls = s.bulk_calls ++ [s.import_events ++ [hdr, pl]])

/-! ### Helper lemmas about the embedded operations -/

theorem norm_go_zero (ev : Event) (i : Nat) : norm_go ev i 0 = .ok ev := rfl

theorem norm_go_succ (ev : Event) (i todo : Nat) :
    norm_go ev i (todo + 1) =
      match ev[i]? with
      | none => .ok ev
      | some kv =>
        if (dictSet ev (ensure_text kv.1) (ensure_text kv.2)).length = ev.length
        then norm_go (dictSet ev (ensure_text kv.1) (ensure_text kv.2)) (i + 1) todo
        else .error (.runtimeError "dictionary changed size during iteration") :=
  rfl

theorem norm_go_succ_some {ev : Event} {i : Nat} {kv : PyStr × PyStr}
    (hg : ev[i]? = some kv) (todo : Nat) :
    norm_go ev i (todo + 1) =
      if (dictSet ev (ensure_text kv.1) (ensure_text kv.2)).length = ev.length
      then norm_go (dictSet ev (ensure_text kv.1) (ensure_text kv.2)) (i + 1) todo
      else .error (.runtimeError "dictionary changed size during iteration") := by
  rw [norm_go_succ, hg]

theorem dictSet_keys (ev : Event) (k v : PyStr) :
    (dictSet ev k v).map Prod.fst =
      if k ∈ ev.map Prod.fst then ev.map Prod.fst
      else ev.map Prod.fst ++ [k] := by
  induction ev with
  | nil => simp [dictSet]
  | cons kv rest ih =>
    by_cases hk : kv.1 = k
    · simp [dictSet, hk]
    · have hkk : ¬ (k = kv.1) := fun h => hk h.symm
      by_cases hm : k ∈ rest.map Prod.fst <;>
        simp [dictSet, hk, hkk, hm, ih]

theorem dictSet_length (ev : Event) (k v : PyStr) :
    (dictSet ev k v).length =
      if k ∈ ev.map Prod.fst then ev.length else ev.length + 1 := by
  have h := congrArg List.length (dictSet_keys ev k v)
  simpa [apply_ite List.length] using h

theorem norm_go_ok_keys : ∀ (todo : Nat) (ev ev' : Event) (i : Nat),
    norm_go ev i todo = .ok ev' →
    ev'.map Prod.fst = ev.map Prod.fst := by
  intro todo
  induction todo with
  | zero =>
    intro ev ev' i h
    rw [norm_go_zero] at h
    cases h
    rfl
  | succ n ih =>
    intro ev ev' i h
    cases hg : ev[i]? with
    | none =>
      rw [norm_go_succ, hg] at h
      cases h
      rfl
    | some kv =>
      rw [norm_go_succ_some hg] at h
      by_cases hl : (dictSet ev (ensure_text kv.1) (ensure_text kv.2)).length
          = ev.length
      · rw [if_pos hl] at h
        have hmem : ensure_text kv.1 ∈ ev.map Prod.fst := by
          by_contra hmem
          rw [dictSet_length, if_neg hmem] at hl
          omega
        have hkeys := ih _ _ _ h
        rw [hkeys, dictSet_keys, if_pos hmem]
      · rw [if_neg hl] at h
        cases h

theorem norm_go_isOk_of_keys_eq : ∀ (todo : Nat) (ev₁ ev₂ : Event) (i : Nat),
    ev₁.map Prod.fst = ev₂.map Prod.fst →
    (∃ ev₁', norm_go ev₁ i todo = .ok ev₁') →
    ∃ ev₂', norm_go ev₂ i todo = .ok ev₂' := by
  intro todo
  induction todo with
  | zero =>
    intro ev₁ ev₂ i _ _
    exact ⟨ev₂, norm_go_zero ev₂ i⟩
  | succ n ih =>
    intro ev₁ ev₂ i hkeys hok
    obtain ⟨ev₁', h₁⟩ := hok
    have hlen : ev₁.length = ev₂.length := by
      have h := congrArg List.length hkeys
      simpa using h
    cases hg₁ : ev₁[i]? with
    | none =>
      have hge : ev₂.length ≤ i := by
        have h := List.getElem?_eq_none_iff.mp hg₁
        omega
      exact ⟨ev₂, by rw [norm_go_succ, List.getElem?_eq_none hge]⟩
    | some kv₁ =>
      have hlt : i < ev₁.length := by
        by_contra hlt
        rw [List.getElem?_eq_none (Nat.le_of_not_lt hlt)] at hg₁
        cases hg₁
      have hlt₂ : i < ev₂.length := by omega
      obtain ⟨kv₂, hg₂⟩ : ∃ kv₂, ev₂[i]? = some kv₂ :=
        ⟨ev₂[i], by rw [List.getElem?_eq_getElem hlt₂]⟩
      have hkeq : kv₁.1 = kv₂.1 := by
        have h1 : (ev₁.map Prod.fst)[i]? = some kv₁.1 := by
          rw [List.getElem?_map, hg₁]
          rfl
        have h2 : (ev₂.map Prod.fst)[i]? = some kv₂.1 := by
          rw [List.getElem?_map, hg₂]
          rfl
        rw [hkeys, h2] at h1
        exact (Option.some.injEq _ _ ▸ h1).symm
      rw [norm_go_succ_some hg₁] at h₁
      by_cases hl₁ : (dictSet ev₁ (ensure_text kv₁.1)
          (ensure_text kv₁.2)).length = ev₁.length
      · have hmem₁ : ensure_text kv₁.1 ∈ ev₁.map Prod.fst := by
          by_contra hm
          rw [dictSet_length, if_neg hm] at hl₁
          omega
        have hmem₂ : ensure_text kv₂.1 ∈ ev₂.map Prod.fst := by
          rw [← hkeys, ← hkeq]
          exact hmem₁
        have hl₂ : (dictSet ev₂ (ensure_text kv₂.1)
            (ensure_text kv₂.2)).length = ev₂.length := by
          rw [dictSet_length, if_pos hmem₂]
        rw [if_pos hl₁] at h₁
        have hkeys' : (dictSet ev₁ (ensure_text kv₁.1)
              (ensure_text kv₁.2)).map Prod.fst =
            (dictSet ev₂ (ensure_text kv₂.1)
              (ensure_text kv₂.2)).map Prod.fst := by
          rw [dictSet_keys, dictSet_keys, if_pos hmem₁, if_pos hmem₂, hkeys]
        obtain ⟨ev₂', h₂⟩ := ih _ _ (i + 1) hkeys' ⟨ev₁', h₁⟩
        exact ⟨ev₂', by rw [norm_go_succ_some hg₂, if_pos hl₂]; exact h₂⟩
      · rw [if_neg hl₁] at h₁
        cases h₁

theorem normalize_event_keys {ev ev' : Event}
    (h : normalize_event ev = .ok ev') :
    ev'.map Prod.fst = ev.map Prod.fst :=
  norm_go_ok_keys ev.length ev ev' 0 h

theorem normalize_event_length {ev ev' : Event}
    (h : normalize_event ev = .ok ev') : ev'.length = ev.length := by
  have hk := congrArg List.length (normalize_event_keys h)
  simpa using hk

theorem normalize_event_ne_nil {ev ev' : Event}
    (h : normalize_event ev = .ok ev') (hne : ev ≠ []) : ev' ≠ [] := by
  intro hc
  apply hne
  have hlen := normalize_event_length h
  rw [hc] at hlen
  exact List.length_eq_zero.mp hlen.symm

theorem norm_ok_exists {ev : Event} (h : norm_ok ev = true) :
    ∃ ev', normalize_event ev = .ok ev' := by
  cases hn : normalize_event ev with
  | ok ev' => exact ⟨ev', rfl⟩
  | error e =>
    rw [norm_ok, hn] at h
    cases h

theorem norm_ok_of_normalize {ev ev' : Event}
    (h : normalize_event ev = .ok ev') : norm_ok ev' = true := by
  have hkeys := normalize_event_keys h
  have hlen := normalize_event_length h
  obtain ⟨ev'', h₂⟩ :=
    norm_go_isOk_of_keys_eq ev.length ev ev' 0 hkeys.symm ⟨ev', h⟩
  rw [norm_ok, normalize_event, hlen, h₂]

theorem norm_go_ne_zde : ∀ (todo : Nat) (ev : Event) (i : Nat),
    norm_go ev i todo ≠ .error PyErr.zeroDivisionError := by
  intro todo
  induction todo with
  | zero => intro ev i h; simp [norm_go] at h
  | succ n ih =>
    intro ev i h
    cases hg : ev[i]? with
    | none => rw [norm_go_succ, hg] at h; simp at h
    | some kv =>
      rw [norm_go_succ_some hg] at h
      by_cases hl : (dictSet ev (ensure_text kv.1) (ensure_text kv.2)).length
          = ev.length
      · rw [if_pos hl] at h
        exact ih _ _ h
      · rw [if_neg hl] at h
        simp at h

theorem import_event_modeA (heap : List Event) (s : ElasticsearchDataStore)
    (idx : PyStr) (r : Ref) (eid : Option PyStr) (fi : Int) (ev' : Event)
    (hne : getEvent heap r ≠ [])
    (hnorm : normalize_event (getEvent heap r) = .ok ev') (hfi : fi ≠ 0) :
    import_event heap s idx (some r) eid fi =
      .ok (heap.set r ev',
           if ((s.import_counter + 1 : Nat) : Int) % fi = 0 then
             ⟨s.import_counter + 1, [],
              s.bulk_calls ++ [s.import_events ++
                [bulk_header idx eid, bulk_payload r eid ev']]⟩
           else
             ⟨s.import_counter + 1,
              s.import_events ++
                [bulk_header idx eid, bulk_payload r eid ev'],
              s.bulk_calls⟩,
           s.import_counter + 1) := by
  have hemp : (getEvent heap r).isEmpty = false := by
    simpa [List.isEmpty_eq_false] using hne
  simp only [import_event, hemp, Bool.false_eq_true, if_false, hnorm,
    if_neg hfi]
  split <;> rfl

theorem getEvent_set_preserves (heap : List Event) (r : Ref) (ev : Event)
    (r' : Ref) :
    getEvent (heap.set r ev) r' = getEvent heap r' ∨
      (getEvent (heap.set r ev) r' = ev ∧ r' = r ∧ r < heap.length) := by
  by_cases hr : r' = r
  · subst hr
    by_cases hlt : r' < heap.length
    · right
      refine ⟨?_, rfl, hlt⟩
      simp [getEvent, List.getD_eq_getElem?_getD, List.getElem?_set_self hlt]
    · left
      rw [List.set_eq_of_length_le (Nat.le_of_not_lt hlt)]
  · left
    simp [getEvent, List.getD_eq_getElem?_getD,
      List.getElem?_set_ne (fun h => hr h.symm)]

theorem goodRef_after_set (heap : List Event) (r : Ref) (ev' : Event)
    (hnorm : normalize_event (getEvent heap r) = .ok ev') (r' : Ref)
    (h : getEvent heap r' ≠ [] ∧ norm_ok (getEvent heap r') = true) :
    getEvent (heap.set r ev') r' ≠ [] ∧
      norm_ok (getEvent (heap.set r ev') r') = true := by
  rcases getEvent_set_preserves heap r ev' r' with he | ⟨he, hr, _⟩
  · rw [he]
    exact h
  · subst hr
    rw [he]
    exact ⟨normalize_event_ne_nil hnorm h.1, norm_ok_of_normalize hnorm⟩

theorem import_n_nil (heap : List Event) (s : ElasticsearchDataStore)
    (idx : PyStr) (fi : Int) :
    import_n heap s idx [] fi = .ok (heap, s, s.import_counter) := rfl

theorem import_n_cons (heap : List Event) (s : ElasticsearchDataStore)
    (idx : PyStr) (r : Ref) (rest : List Ref) (fi : Int) :
    import_n heap s idx (r :: rest) fi =
      match import_event heap s idx (some r) none fi with
      | .error e => .error e
      | .ok (h', s', _) => import_n h' s' idx rest fi := rfl

theorem import_n_no_flush (rs : List Ref) :
    ∀ (heap : List Event) (s : ElasticsearchDataStore) (idx : PyStr)
      (fi : Int), fi ≠ 0 →
    (∀ r ∈ rs, getEvent heap r ≠ [] ∧ norm_ok (getEvent heap r) = true) →
    (∀ j : Nat, s.import_counter < j → j ≤ s.import_counter + rs.length →
      ¬ (((j : Nat) : Int) % fi = 0)) →
    ∃ heap',
      import_n heap s idx rs fi =
        .ok (heap', ⟨s.import_counter + rs.length,
                     s.import_events ++ queuedEntries idx rs,
                     s.bulk_calls⟩, s.import_counter + rs.length) ∧
      (∀ r', getEvent heap r' ≠ [] ∧ norm_ok (getEvent heap r') = true →
        getEvent heap' r' ≠ [] ∧ norm_ok (getEvent heap' r') = true) := by
  induction rs with
  | nil =>
    intro heap s idx fi hfi hwf hnf
    refine ⟨heap, ?_, fun r' h => h⟩
    simp [import_n_nil, queuedEntries]
  | cons r rest ih =>
    intro heap s idx fi hfi hwf hnf
    obtain ⟨hne, hok⟩ := hwf r (by simp)
    obtain ⟨ev', hnorm⟩ := norm_ok_exists hok
    have hnotmod : ¬ (((s.import_counter + 1 : Nat) : Int) % fi = 0) := by
      refine hnf (s.import_counter + 1) (Nat.lt_succ_self _) ?_
      simp only [List.length_cons]
      omega
    rw [import_n_cons,
      import_event_modeA heap s idx r none fi ev' hne hnorm hfi,
      if_neg hnotmod]
    obtain ⟨heap', hrun, hpres'⟩ := ih (heap.set r ev')
      ⟨s.import_counter + 1,
       s.import_events ++
         [bulk_header idx none, bulk_payload r none ev'],
       s.bulk_calls⟩ idx fi hfi
      (fun r' hr' =>
        goodRef_after_set heap r ev' hnorm r' (hwf r' (by simp [hr'])))
      (fun j h1 h2 => by
        refine hnf j (by simp at h1 ⊢; omega) ?_
        simp at h2 ⊢
        omega)
    simp only []
    rw [hrun]
    refine ⟨heap', ?_,
      fun r' h => hpres' r' (goodRef_after_set heap r ev' hnorm r' h)⟩
    simp only [queuedEntries, bulk_header, bulk_payload, optStrTruthy,
      Bool.false_eq_true, if_false, List.length_cons, List.append_assoc,
      List.cons_append, List.nil_append]
    have harith : s.import_counter + 1 + rest.length =
        s.import_counter + (rest.length + 1) := by omega
    rw [harith]

theorem import_n_append (heap : List Event) (s : ElasticsearchDataStore)
    (idx : PyStr) (l₁ l₂ : List Ref) (fi : Int) :
    import_n heap s idx (l₁ ++ l₂) fi =
      match import_n heap s idx l₁ fi with
      | .error e => .error e
      | .ok (h', s', _) => import_n h' s' idx l₂ fi := by
  induction l₁ generalizing heap s with
  | nil => rfl
  | cons r rest ih =>
    rw [List.cons_append, import_n_cons, import_n_cons]
    cases import_event heap s idx (some r) none fi with
    | error e => rfl
    | ok x =>
      obtain ⟨h', s', m⟩ := x
      exact ih h' s'

theorem queuedEntries_length (idx : PyStr) (rs : List Ref) :
    (queuedEntries idx rs).length = 2 * rs.length := by
  induction rs with
  | nil => rfl
  | cons r rest ih =>
    simp only [queuedEntries, List.length_cons, ih]
    omega

theorem queuedEntries_append (idx : PyStr) (l₁ l₂ : List Ref) :
    queuedEntries idx (l₁ ++ l₂) =
      queuedEntries idx l₁ ++ queuedEntries idx l₂ := by
  induction l₁ with
  | nil => rfl
  | cons r rest ih => simp [queuedEntries, ih]

theorem natCast_emod_ne_zero {j n : Nat} (h1 : 1 ≤ j) (h2 : j < n) :
    ¬ (((j : Nat) : Int) % (n : Int) = 0) := by
  rw [Int.emod_eq_of_lt (by exact_mod_cast Nat.zero_le j)
    (by exact_mod_cast h2)]
  intro hc
  have : j = 0 := by exact_mod_cast hc
  omega

/-- C1 (amended): Starting from a freshly constructed store, for every
`flush_interval` `n ≥ 1`, calling `import_event` `n` times with non-empty
events whose normalization completes without error, each call passing
`flush_interval = n`, issues exactly one bulk-write call, occurring during
the `n`-th call and containing the entire pending buffer (all `2 * n`
header/payload entries); immediately after that `n`-th call the pending
buffer is empty, and no bulk-write occurs during the first `n - 1` calls. -/
theorem import_event_autoflush (n : Nat) (hn : 1 ≤ n) (heap : List Event)
    (idx : PyStr) (rs : List Ref) (hlen : rs.length = n)
    (hwf : ∀ r ∈ rs,
      getEvent heap r ≠ [] ∧ norm_ok (getEvent heap r) = true) :
    (∀ k, k < n → ∃ heap' s',
      import_n heap freshStore idx (rs.take k) ((n : Nat) : Int) =
        .ok (heap', s', k) ∧
      s'.bulk_calls = [] ∧
      s'.import_events = queuedEntries idx (rs.take k) ∧
      s'.import_events.length = 2 * k) ∧
    (∃ heap' s',
      import_n heap freshStore idx rs ((n : Nat) : Int) =
        .ok (heap', s', n) ∧
      s'.bulk_calls = [queuedEntries idx rs] ∧
      (queuedEntries idx rs).length = 2 * n ∧
      s'.import_events = []) := by
  have hfi : ((n : Nat) : Int) ≠ 0 := by
    exact_mod_cast Nat.pos_iff_ne_zero.mp hn
  constructor
  · intro k hk
    have hkle : k ≤ rs.length := by omega
    have htlen : (rs.take k).length = k := by
      rw [List.length_take]
      omega
    obtain ⟨heap', hrun, _⟩ := import_n_no_flush (rs.take k) heap freshStore
      idx ((n : Nat) : Int) hfi
      (fun r hr => hwf r (List.take_subset k rs hr))
      (fun j hj1 hj2 => by
        refine natCast_emod_ne_zero (by simpa [freshStore] using hj1) ?_
        simp only [freshStore, htlen] at hj2
        omega)
    simp only [freshStore, Nat.zero_add, htlen, List.nil_append] at hrun
    exact ⟨heap', ⟨k, queuedEntries idx (rs.take k), []⟩, hrun, rfl, rfl,
      by rw [queuedEntries_length, htlen]⟩
  · have hsplit : rs = rs.take (n - 1) ++ rs.drop (n - 1) :=
      (List.take_append_drop (n - 1) rs).symm
    have htlen : (rs.take (n - 1)).length = n - 1 := by
      rw [List.length_take]
      omega
    have hdlen : (rs.drop (n - 1)).length = 1 := by
      rw [List.length_drop]
      omega
    obtain ⟨rlast, hrlast⟩ := List.length_eq_one.mp hdlen
    obtain ⟨heap₁, hrun₁, hpres₁⟩ := import_n_no_flush (rs.take (n - 1)) heap
      freshStore idx ((n : Nat) : Int) hfi
      (fun r hr => hwf r (List.take_subset (n - 1) rs hr))
      (fun j hj1 hj2 => by
        refine natCast_emod_ne_zero (by simpa [freshStore] using hj1) ?_
        simp only [freshStore, htlen] at hj2
        omega)
    have hwflast : getEvent heap₁ rlast ≠ [] ∧
        norm_ok (getEvent heap₁ rlast) = true := by
      refine hpres₁ rlast (hwf rlast ?_)
      have hmem : rlast ∈ rs.drop (n - 1) := by rw [hrlast]; simp
      exact List.drop_subset (n - 1) rs hmem
    obtain ⟨evl, hnorml⟩ := norm_ok_exists hwflast.2
    simp only [freshStore, Nat.zero_add, htlen, List.nil_append] at hrun₁
    have hn1 : n - 1 + 1 = n := by omega
    have hmod : ((n - 1 + 1 + 0 : Nat) : Int) % ((n : Nat) : Int) = 0 := by
      rw [Nat.add_zero, hn1]
      exact Int.emod_self
    have hfull := import_n_append heap freshStore idx (rs.take (n - 1))
      (rs.drop (n - 1)) ((n : Nat) : Int)
    simp only [freshStore] at hfull
    rw [← hsplit, hrun₁, hrlast] at hfull
    simp only [] at hfull
    rw [import_n_cons,
      import_event_modeA heap₁ _ idx rlast none _ evl hwflast.1 hnorml
        hfi] at hfull
    simp only [Nat.add_zero, hn1, Int.emod_self, if_pos, import_n_nil,
      List.nil_append] at hfull
    have hq : queuedEntries idx (rs.take (n - 1)) ++
        [bulk_header idx none, bulk_payload rlast none evl] =
        queuedEntries idx rs := by
      conv_rhs => rw [hsplit, hrlast]
      rw [queuedEntries_append]
      rfl
    rw [hq] at hfull
    exact ⟨_, _, hfull, rfl, by rw [queuedEntries_length, hlen], rfl⟩

/-- C1 counterexample: a single non-empty event with a binary-encoded key,
imported with `flush_interval = 1`: the call raises `RuntimeError` inside
normalization, so it returns no state at all and no bulk-write ever
happens, although the claim promises exactly one bulk-write during this
first (= `n`-th) call. -/
theorem import_event_autoflush_counterexample :
    getEvent [[(PyStr.binary "k", PyStr.binary "v")]] 0 ≠ [] ∧
    import_n [[(PyStr.binary "k", PyStr.binary "v")]] freshStore
        (PyStr.text "i") [0] ((1 : Nat) : Int) =
      .error (PyErr.runtimeError
        "dictionary changed size during iteration") :=
  ⟨by decide, rfl⟩

/-- Witness for the amended C1: two imports with `flush_interval = 2` on
concrete events. -/
theorem import_event_autoflush_witness :
    (1 ≤ 2 ∧ ([0, 1] : List Ref).length = 2 ∧
      (∀ r ∈ ([0, 1] : List Ref),
        getEvent [[(PyStr.text "a", PyStr.text "b")],
                  [(PyStr.text "c", PyStr.text "d")]] r ≠ [] ∧
        norm_ok (getEvent [[(PyStr.text "a", PyStr.text "b")],
                           [(PyStr.text "c", PyStr.text "d")]] r) =
          true)) ∧
    ((∀ k, k < 2 → ∃ heap' s',
        import_n [[(PyStr.text "a", PyStr.text "b")],
                  [(PyStr.text "c", PyStr.text "d")]]
          freshStore (PyStr.text "i") (([0, 1] : List Ref).take k)
          ((2 : Nat) : Int) = .ok (heap', s', k) ∧
        s'.bulk_calls = [] ∧
        s'.import_events =
          queuedEntries (PyStr.text "i") (([0, 1] : List Ref).take k) ∧
        s'.import_events.length = 2 * k) ∧
      (∃ heap' s',
        import_n [[(PyStr.text "a", PyStr.text "b")],
                  [(PyStr.text "c", PyStr.text "d")]]
          freshStore (PyStr.text "i") ([0, 1] : List Ref)
          ((2 : Nat) : Int) = .ok (heap', s', 2) ∧
        s'.bulk_calls = [queuedEntries (PyStr.text "i") ([0, 1] : List Ref)] ∧
        (queuedEntries (PyStr.text "i") ([0, 1] : List Ref)).length = 2 * 2 ∧
        s'.import_events = [])) :=
  ⟨⟨by decide, by decide, by decide⟩,
   import_event_autoflush 2 (by decide)
     [[(PyStr.text "a", PyStr.text "b")], [(PyStr.text "c", PyStr.text "d")]]
     (PyStr.text "i") [0, 1] (by decide) (by decide)⟩

theorem import_event_none (heap : List Event) (s : ElasticsearchDataStore)
    (idx : PyStr) (eid : Option PyStr) (fi : Int) :
    import_event heap s idx none eid fi = flush_remaining heap s := rfl

theorem flush_remaining_eq (heap : List Event) (s : ElasticsearchDataStore) :
    flush_remaining heap s =
      .ok (heap,
           (if s.import_events.isEmpty then s
            else { s with bulk_calls := s.bulk_calls ++ [s.import_events] }),
           s.import_counter) := by
  by_cases h : s.import_events.isEmpty <;> simp [flush_remaining, h]

/-- C5: For every call to `import_event` with no event (drain mode): if the
pending buffer is non-empty, exactly one bulk-write is issued containing
exactly the buffer's current header/payload entries; if the pending buffer
is empty, zero bulk-write calls are issued; in both cases the call returns
the cumulative events counter, which is not incremented by a drain call. -/
theorem import_event_drain_spec (heap : List Event)
    (s : ElasticsearchDataStore) (idx : PyStr) (eid : Option PyStr)
    (fi : Int) :
    import_event heap s idx none eid fi =
      .ok (heap,
           (if s.import_events.isEmpty then s
            else { s with bulk_calls := s.bulk_calls ++ [s.import_events] }),
           s.import_counter) := by
  rw [import_event_none, flush_remaining_eq]

/-- C8: `import_event` called with no event (drain mode) never modifies the
pending buffer: even after a successful bulk-write of a non-empty buffer,
the buffer still contains all its entries, so a second immediate drain
issues another bulk-write with the same contents. -/
theorem import_event_drain_keeps_buffer (heap : List Event)
    (s : ElasticsearchDataStore) (idx : PyStr) (fi : Int) :
    ∃ s₁,
      import_event heap s idx none none fi =
        .ok (heap, s₁, s.import_counter) ∧
      s₁.import_events = s.import_events ∧
      s₁.import_counter = s.import_counter ∧
      import_event heap s₁ idx none none fi =
        .ok (heap,
             { s₁ with bulk_calls := s₁.bulk_calls ++
                 (if s.import_events.isEmpty then []
                  else [s.import_events]) },
             s.import_counter) := by
  by_cases h : s.import_events.isEmpty
  · refine ⟨s, ?_, rfl, rfl, ?_⟩
    · rw [import_event_none, flush_remaining_eq, if_pos h]
    · rw [import_event_none, flush_remaining_eq, if_pos h, if_pos h]
      simp
  · refine ⟨{ s with bulk_calls := s.bulk_calls ++ [s.import_events] },
      ?_, rfl, rfl, ?_⟩
    · rw [import_event_none, flush_remaining_eq, if_neg h]
    · rw [import_event_none, flush_remaining_eq]
      simp only [h, Bool.false_eq_true, if_false]

/-- C9 counterexample: for the non-empty event `{b'k': b'v'}` and
`flush_interval = 0`, the call raises the normalization `RuntimeError`
before it ever reaches the modulo check, not `ZeroDivisionError`. -/
theorem import_event_zero_interval_counterexample :
    getEvent [[(PyStr.binary "k", PyStr.binary "v")]] 0 ≠ [] ∧
    import_event [[(PyStr.binary "k", PyStr.binary "v")]] freshStore
        (PyStr.text "i") (some 0) none 0 =
      .error (PyErr.runtimeError
        "dictionary changed size during iteration") ∧
    PyErr.runtimeError "dictionary changed size during iteration" ≠
      PyErr.zeroDivisionError :=
  ⟨by decide, rfl, by simp⟩

/-- C9 (amended): If `int(flush_interval)` equals `0`, `import_event` with a
non-empty event whose normalization completes without error raises
`ZeroDivisionError` at the auto-flush modulo check; with
`int(flush_interval) ≠ 0` that error is unreachable, whatever the
arguments. -/
theorem import_event_zero_interval (heap : List Event)
    (s : ElasticsearchDataStore) (idx : PyStr) (r : Ref)
    (eid : Option PyStr) (ev' : Event)
    (hne : getEvent heap r ≠ [])
    (hnorm2 : normalize_event (getEvent heap r) = .ok ev') :
    import_event heap s idx (some r) eid 0 =
      .error PyErr.zeroDivisionError ∧
    ∀ fi : Int, fi ≠ 0 → ∀ (event : Option Ref) (eid' : Option PyStr),
      import_event heap s idx event eid' fi ≠
        .error PyErr.zeroDivisionError := by
  have hemp : (getEvent heap r).isEmpty = false := by
    simpa [List.isEmpty_eq_false] using hne
  constructor
  · simp [import_event, hemp, hnorm2]
  · intro fi hfi event eid'
    cases event with
    | none =>
      rw [import_event_none, flush_remaining_eq]
      simp
    | some r' =>
      by_cases hemp' : (getEvent heap r').isEmpty
      · have hdrain : import_event heap s idx (some r') eid' fi =
            flush_remaining heap s := by
          simp [import_event, hemp']
        rw [hdrain, flush_remaining_eq]
        simp
      · cases hnorm : normalize_event (getEvent heap r') with
        | error e =>
          have hne2 : e ≠ PyErr.zeroDivisionError := by
            intro hc
            subst hc
            exact norm_go_ne_zde (getEvent heap r').length
              (getEvent heap r') 0 hnorm
          simp [import_event, hemp', hnorm, hne2]
        | ok ev' =>
          simp only [import_event, hemp', Bool.false_eq_true, if_false,
            hnorm, if_neg hfi]
          split <;> simp

/-- Witness for the amended C9 at a concrete one-field event. -/
theorem import_event_zero_interval_witness :
    (getEvent [[(PyStr.text "a", PyStr.text "b")]] 0 ≠ [] ∧
      normalize_event (getEvent [[(PyStr.text "a", PyStr.text "b")]] 0) =
        .ok [(PyStr.text "a", PyStr.text "b")]) ∧
    (import_event [[(PyStr.text "a", PyStr.text "b")]] freshStore
        (PyStr.text "i") (some 0) none 0 =
      .error PyErr.zeroDivisionError ∧
    ∀ fi : Int, fi ≠ 0 → ∀ (event : Option Ref) (eid' : Option PyStr),
      import_event [[(PyStr.text "a", PyStr.text "b")]] freshStore
          (PyStr.text "i") event eid' fi ≠
        .error PyErr.zeroDivisionError) :=
  ⟨⟨by decide, rfl⟩,
   import_event_zero_interval [[(PyStr.text "a", PyStr.text "b")]]
     freshStore (PyStr.text "i") 0 none [(PyStr.text "a", PyStr.text "b")]
     (by decide) rfl⟩

theorem isText_ensure_text (k : PyStr) : isText (ensure_text k) = true := by
  cases k <;> rfl

/-- C6: `create_index` and `delete_index` are idempotent: `create_index`
performs a backend creation only if the index does not already exist (so two
calls with the same name create at most once) and returns the index name
normalized to text whether newly created or pre-existing; `delete_index`
performs a backend deletion only if the index exists, and is a no-op raising
no error when it does not. -/
theorem create_delete_index_idempotent (c : ESClient) (m : PyStr) :
    (∀ c₁ r₁, create_index c m = .ok (c₁, r₁) →
      r₁ = ensure_text m ∧ isText r₁ = true ∧
      c₁.create_calls = c.create_calls +
        (if m ∈ c.indices then 0 else 1) ∧
      create_index c₁ m = .ok (c₁, r₁)) ∧
    (m ∈ c.indices → create_index c m = .ok (c, ensure_text m)) ∧
    (m ∉ c.indices → delete_index c m = .ok c) ∧
    (∀ c₂, delete_index c m = .ok c₂ →
      c₂.delete_calls = c.delete_calls +
        (if m ∈ c.indices then 1 else 0)) := by
  refine ⟨?_, ?_, ?_, ?_⟩
  · intro c₁ r₁ h
    by_cases hmem : m ∈ c.indices
    · rw [create_index, if_pos hmem] at h
      simp only [Except.ok.injEq, Prod.mk.injEq] at h
      obtain ⟨rfl, rfl⟩ := h
      refine ⟨rfl, isText_ensure_text m, by simp [hmem], ?_⟩
      rw [create_index, if_pos hmem]
    · by_cases hcon : c.connected
      · rw [create_index, if_neg hmem, if_pos hcon] at h
        simp only [Except.ok.injEq, Prod.mk.injEq] at h
        obtain ⟨rfl, rfl⟩ := h
        refine ⟨rfl, isText_ensure_text m, by simp [hmem], ?_⟩
        rw [create_index, if_pos (by simp)]
      · rw [create_index, if_neg hmem, if_neg hcon] at h
        simp at h
  · intro hmem
    rw [create_index, if_pos hmem]
  · intro hmem
    rw [delete_index, if_neg hmem]
  · intro c₂ h
    by_cases hmem : m ∈ c.indices
    · by_cases hcon : c.connected
      · rw [delete_index, if_pos hmem, if_pos hcon] at h
        simp only [Except.ok.injEq] at h
        subst h
        simp [hmem]
      · rw [delete_index, if_pos hmem, if_neg hcon] at h
        simp at h
    · rw [delete_index, if_neg hmem] at h
      simp only [Except.ok.injEq] at h
      subst h
      simp [hmem]

/-- Witness for C6 on a fresh backend and a binary index name. -/
theorem create_delete_index_idempotent_witness :
    create_index ⟨[], true, "", 0, 0⟩ (PyStr.binary "idx") =
      .ok (⟨[PyStr.binary "idx"], true, "", 1, 0⟩, PyStr.text "idx") ∧
    ((∀ c₁ r₁,
        create_index ⟨[], true, "", 0, 0⟩ (PyStr.binary "idx") =
          .ok (c₁, r₁) →
        r₁ = ensure_text (PyStr.binary "idx") ∧ isText r₁ = true ∧
        c₁.create_calls = (0 : Nat) +
          (if (PyStr.binary "idx") ∈ ([] : List PyStr) then 0 else 1) ∧
        create_index c₁ (PyStr.binary "idx") = .ok (c₁, r₁)) ∧
      ((PyStr.binary "idx") ∈ ([] : List PyStr) →
        create_index ⟨[], true, "", 0, 0⟩ (PyStr.binary "idx") =
          .ok (⟨[], true, "", 0, 0⟩, ensure_text (PyStr.binary "idx"))) ∧
      ((PyStr.binary "idx") ∉ ([] : List PyStr) →
        delete_index ⟨[], true, "", 0, 0⟩ (PyStr.binary "idx") =
          .ok ⟨[], true, "", 0, 0⟩) ∧
      (∀ c₂, delete_index ⟨[], true, "", 0, 0⟩ (PyStr.binary "idx") =
          .ok c₂ →
        c₂.delete_calls = (0 : Nat) +
          (if (PyStr.binary "idx") ∈ ([] : List PyStr) then 1 else 0))) :=
  ⟨rfl,
   create_delete_index_idempotent ⟨[], true, "", 0, 0⟩ (PyStr.binary "idx")⟩

/-- C7: If the backend raises a connection error during the creation attempt
in `create_index` or during the deletion attempt in `delete_index`, the
operation fails with a `RuntimeError` (the distinct backend-unavailable
error) rather than the raw `ConnectionError`, and for `delete_index` the
raised error's message carries the underlying cause. -/
theorem index_ops_backend_unavailable (c : ESClient) (m : PyStr)
    (hconn : c.connected = false) :
    (m ∉ c.indices →
      create_index c m =
        .error (PyErr.runtimeError
          "Unable to connect to backend datastore.") ∧
      ∀ msg, create_index c m ≠ .error (PyErr.connectionError msg)) ∧
    (m ∈ c.indices →
      delete_index c m =
        .error (PyErr.runtimeError
          ("Unable to connect to backend datastore: " ++ c.conn_msg)) ∧
      ∀ msg, delete_index c m ≠ .error (PyErr.connectionError msg)) := by
  constructor
  · intro hmem
    have h : create_index c m =
        .error (PyErr.runtimeError
          "Unable to connect to backend datastore.") := by
      rw [create_index, if_neg hmem, if_neg (by simp [hconn])]
    exact ⟨h, fun msg hc => by rw [h] at hc; simp at hc⟩
  · intro hmem
    have h : delete_index c m =
        .error (PyErr.runtimeError
          ("Unable to connect to backend datastore: " ++ c.conn_msg)) := by
      rw [delete_index, if_pos hmem, if_neg (by simp [hconn])]
    exact ⟨h, fun msg hc => by rw [h] at hc; simp at hc⟩

/-- Witness for C7 on a disconnected backend. -/
theorem index_ops_backend_unavailable_witness :
    (⟨[PyStr.text "old"], false, "boom", 0, 0⟩ : ESClient).connected =
      false ∧
    (((PyStr.text "old") ∉
        (⟨[PyStr.text "old"], false, "boom", 0, 0⟩ : ESClient).indices →
      create_index ⟨[PyStr.text "old"], false, "boom", 0, 0⟩
          (PyStr.text "old") =
        .error (PyErr.runtimeError
          "Unable to connect to backend datastore.") ∧
      ∀ msg, create_index ⟨[PyStr.text "old"], false, "boom", 0, 0⟩
          (PyStr.text "old") ≠ .error (PyErr.connectionError msg)) ∧
    ((PyStr.text "old") ∈
        (⟨[PyStr.text "old"], false, "boom", 0, 0⟩ : ESClient).indices →
      delete_index ⟨[PyStr.text "old"], false, "boom", 0, 0⟩
          (PyStr.text "old") =
        .error (PyErr.runtimeError
          ("Unable to connect to backend datastore: " ++ "boom")) ∧
      ∀ msg, delete_index ⟨[PyStr.text "old"], false, "boom", 0, 0⟩
          (PyStr.text "old") ≠ .error (PyErr.connectionError msg))) :=
  ⟨rfl,
   index_ops_backend_unavailable
     ⟨[PyStr.text "old"], false, "boom", 0, 0⟩ (PyStr.text "old") rfl⟩

/-- C2 (code bug): normalization does not remove binary-encoded keys.  For
the event `{b'a': b'x', 'a': 'y'}` the decoded key/value pair is written
over the text entry, but the original binary-keyed entry survives and is
buffered, so the buffered payload still contains a binary key and a binary
value; for the event `{b'k': b'v'}` the in-iteration insertion of the
decoded key changes the dict size and Python 3 raises `RuntimeError`
instead of buffering anything. -/
theorem import_event_binary_keys_not_normalized :
    import_event [[(PyStr.binary "a", PyStr.binary "x"),
                   (PyStr.text "a", PyStr.text "y")]] freshStore
        (PyStr.text "i") (some 0) none 10 =
      .ok ([[(PyStr.binary "a", PyStr.binary "x"),
             (PyStr.text "a", PyStr.text "x")]],
           ⟨1, [Entry.indexHeader (PyStr.text "i"), Entry.plain 0], []⟩,
           1) ∧
    ((getEvent [[(PyStr.binary "a", PyStr.binary "x"),
                 (PyStr.text "a", PyStr.text "x")]] 0).map Prod.fst).all
        isText = false ∧
    import_event [[(PyStr.binary "k", PyStr.binary "v")]] freshStore
        (PyStr.text "i") (some 0) none 10 =
      .error (PyErr.runtimeError
        "dictionary changed size during iteration") :=
  ⟨rfl, rfl, rfl⟩

theorem lt_length_of_getEvent_ne_nil {heap : List Event} {r : Ref}
    (h : getEvent heap r ≠ []) : r < heap.length := by
  by_contra hlt
  apply h
  simp [getEvent, List.getD_eq_getElem?_getD,
    List.getElem?_eq_none (Nat.le_of_not_lt hlt)]

/-- C3 counterexample, refuting the claim at two concrete calls: with the
event id supplied as the empty string (`event_id=''`, falsy in Python) the
buffered header is the `index` header, not the promised `update` header;
and with the non-empty event `{b'k': b'v'}` the call raises `RuntimeError`
during normalization, so no entries at all are appended although the claim
promises exactly two. -/
theorem import_event_empty_event_id_gets_index_header :
    (import_event [[(PyStr.text "a", PyStr.text "b")]] freshStore
        (PyStr.text "i") (some 0) (some (PyStr.text "")) 10 =
      .ok ([[(PyStr.text "a", PyStr.text "b")]],
           ⟨1, [Entry.indexHeader (PyStr.text "i"), Entry.plain 0], []⟩,
           1) ∧
    Entry.indexHeader (PyStr.text "i") ≠
      Entry.updateHeader (PyStr.text "i") (some (PyStr.text ""))) ∧
    (getEvent [[(PyStr.binary "k", PyStr.binary "v")]] 0 ≠ [] ∧
    import_event [[(PyStr.binary "k", PyStr.binary "v")]] freshStore
        (PyStr.text "i") (some 0) (some (PyStr.text "id9")) 10 =
      .error (PyErr.runtimeError
        "dictionary changed size during iteration")) :=
  ⟨⟨rfl, by simp⟩, ⟨by decide, rfl⟩⟩

/-- C3 (amended): For every `import_event` call with a non-empty event
whose normalization completes without error, exactly two entries are
appended to the pending buffer — the instruction header first, then the
payload immediately after it; when no truthy `event_id` is supplied (none,
or falsy such as `''`) the header is `{"index": {"_index": index_name}}`
and the payload is the (normalized) event itself, unwrapped; when a truthy
`event_id` is supplied the header is
`{"update": {"_index": index_name, "_id": event_id}}`. -/
theorem import_event_appends_header_then_payload (heap : List Event)
    (s : ElasticsearchDataStore) (idx : PyStr) (r : Ref)
    (eid : Option PyStr) (fi : Int) (ev' : Event)
    (hne : getEvent heap r ≠ [])
    (hnorm2 : normalize_event (getEvent heap r) = .ok ev')
    (hfi : fi ≠ 0) :
    ∃ heap' s',
      import_event heap s idx (some r) eid fi =
        .ok (heap', s', s.import_counter + 1) ∧
      appendedPair s s' (bulk_header idx eid) (bulk_payload r eid ev') ∧
      (optStrTruthy eid = true →
        bulk_header idx eid = Entry.updateHeader idx eid) ∧
      (optStrTruthy eid = false →
        bulk_header idx eid = Entry.indexHeader idx ∧
        bulk_payload r eid ev' = Entry.plain r ∧
        getEvent heap' r = ev') := by
  have hr : r < heap.length := lt_length_of_getEvent_ne_nil hne
  refine ⟨heap.set r ev',
    (if ((s.import_counter + 1 : Nat) : Int) % fi = 0 then
       ⟨s.import_counter + 1, [],
        s.bulk_calls ++ [s.import_events ++
          [bulk_header idx eid, bulk_payload r eid ev']]⟩
     else
       ⟨s.import_counter + 1,
        s.import_events ++
          [bulk_header idx eid, bulk_payload r eid ev'],
        s.bulk_calls⟩ : ElasticsearchDataStore),
    ?_, ?_, ?_, ?_⟩
  · exact import_event_modeA heap s idx r eid fi ev' hne hnorm2 hfi
  · by_cases hmod : ((s.import_counter + 1 : Nat) : Int) % fi = 0
    · right
      rw [if_pos hmod]
      exact ⟨rfl, rfl⟩
    · left
      rw [if_neg hmod]
      exact ⟨rfl, rfl⟩
  · intro ht
    rw [bulk_header, if_pos ht]
  · intro hf
    refine ⟨by rw [bulk_header, hf]; rfl, by rw [bulk_payload, hf]; rfl, ?_⟩
    simp [getEvent, List.getD_eq_getElem?_getD, List.getElem?_set_self hr]

/-- Witness for the amended C3 with a truthy event id. -/
theorem import_event_appends_header_then_payload_witness :
    (getEvent [[(PyStr.text "a", PyStr.text "b")]] 0 ≠ [] ∧
      normalize_event (getEvent [[(PyStr.text "a", PyStr.text "b")]] 0) =
        .ok [(PyStr.text "a", PyStr.text "b")] ∧
      (10 : Int) ≠ 0) ∧
    (∃ heap' s',
      import_event [[(PyStr.text "a", PyStr.text "b")]] freshStore
          (PyStr.text "i") (some 0) (some (PyStr.text "id1")) 10 =
        .ok (heap', s', freshStore.import_counter + 1) ∧
      appendedPair freshStore s'
        (bulk_header (PyStr.text "i") (some (PyStr.text "id1")))
        (bulk_payload 0 (some (PyStr.text "id1"))
          [(PyStr.text "a", PyStr.text "b")]) ∧
      (optStrTruthy (some (PyStr.text "id1")) = true →
        bulk_header (PyStr.text "i") (some (PyStr.text "id1")) =
          Entry.updateHeader (PyStr.text "i") (some (PyStr.text "id1"))) ∧
      (optStrTruthy (some (PyStr.text "id1")) = false →
        bulk_header (PyStr.text "i") (some (PyStr.text "id1")) =
          Entry.indexHeader (PyStr.text "i") ∧
        bulk_payload 0 (some (PyStr.text "id1"))
          [(PyStr.text "a", PyStr.text "b")] = Entry.plain 0 ∧
        getEvent heap' 0 = [(PyStr.text "a", PyStr.text "b")])) :=
  ⟨⟨by decide, rfl, by decide⟩,
   import_event_appends_header_then_payload
     [[(PyStr.text "a", PyStr.text "b")]] freshStore (PyStr.text "i") 0
     (some (PyStr.text "id1")) 10 [(PyStr.text "a", PyStr.text "b")]
     (by decide) rfl (by decide)⟩

/-- C4 counterexample, refuting the claim at concrete calls: the event
`{'lang': ''}` contains a `lang` field, yet because `event.get('lang')` is
falsy the payload is wrapped as `{'doc': event}`, not `{'script': event}`;
with the event id supplied as `''` (falsy) the payload is the bare event,
not the promised `{'doc': event}`; and for `{'lang': 'x', b'k': b'v'}` with
a truthy id the call raises `RuntimeError` during normalization, so no
payload of any shape is appended. -/
theorem import_event_falsy_lang_gets_doc :
    (import_event [[(PyStr.text "lang", PyStr.text "")]] freshStore
        (PyStr.text "i") (some 0) (some (PyStr.text "x")) 10 =
      .ok ([[(PyStr.text "lang", PyStr.text "")]],
           ⟨1, [Entry.updateHeader (PyStr.text "i") (some (PyStr.text "x")),
                Entry.doc 0], []⟩, 1) ∧
    Entry.doc 0 ≠ Entry.script 0) ∧
    (import_event [[(PyStr.text "c", PyStr.text "d")]] freshStore
        (PyStr.text "i") (some 0) (some (PyStr.text "")) 10 =
      .ok ([[(PyStr.text "c", PyStr.text "d")]],
           ⟨1, [Entry.indexHeader (PyStr.text "i"), Entry.plain 0], []⟩,
           1) ∧
    Entry.plain 0 ≠ Entry.doc 0) ∧
    import_event
        [[(PyStr.text "lang", PyStr.text "x"),
          (PyStr.binary "k", PyStr.binary "v")]] freshStore
        (PyStr.text "i") (some 0) (some (PyStr.text "y")) 10 =
      .error (PyErr.runtimeError
        "dictionary changed size during iteration") :=
  ⟨⟨rfl, by simp⟩, ⟨rfl, by simp⟩, rfl⟩

/-- C4 (amended): For every `import_event` call with a non-empty event
whose normalization completes without error and a truthy `event_id`
supplied: if the event (as normalized in place by the call, which is when
`event.get('lang')` is consulted) contains a `lang` field with a truthy
value, the payload appended to the pending buffer has the shape
`{"script": event}`; otherwise (no `lang` field, or a falsy one) the
payload has the shape `{"doc": event}`. -/
theorem import_event_script_doc_payload (heap : List Event)
    (s : ElasticsearchDataStore) (idx : PyStr) (r : Ref)
    (eid : Option PyStr) (fi : Int) (ev' : Event)
    (hne : getEvent heap r ≠ [])
    (hnorm2 : normalize_event (getEvent heap r) = .ok ev')
    (heid : optStrTruthy eid = true) (hfi : fi ≠ 0) :
    ∃ heap' s',
      import_event heap s idx (some r) eid fi =
        .ok (heap', s', s.import_counter + 1) ∧
      appendedPair s s' (Entry.updateHeader idx eid)
        (if optStrTruthy (dictGet ev' (PyStr.text "lang")) = true
         then Entry.script r else Entry.doc r) ∧
      getEvent heap' r = ev' := by
  have hr : r < heap.length := lt_length_of_getEvent_ne_nil hne
  have hhdr : bulk_header idx eid = Entry.updateHeader idx eid := by
    rw [bulk_header, if_pos heid]
  have hpl : bulk_payload r eid ev' =
      (if optStrTruthy (dictGet ev' (PyStr.text "lang")) = true
       then Entry.script r else Entry.doc r) := by
    rw [bulk_payload, if_pos heid]
  refine ⟨heap.set r ev',
    (if ((s.import_counter + 1 : Nat) : Int) % fi = 0 then
       ⟨s.import_counter + 1, [],
        s.bulk_calls ++ [s.import_events ++
          [Entry.updateHeader idx eid,
           if optStrTruthy (dictGet ev' (PyStr.text "lang")) = true
           then Entry.script r else Entry.doc r]]⟩
     else
       ⟨s.import_counter + 1,
        s.import_events ++
          [Entry.updateHeader idx eid,
           if optStrTruthy (dictGet ev' (PyStr.text "lang")) = true
           then Entry.script r else Entry.doc r],
        s.bulk_calls⟩ : ElasticsearchDataStore),
    ?_, ?_, ?_⟩
  · rw [import_event_modeA heap s idx r eid fi ev' hne hnorm2 hfi,
      hhdr, hpl]
  · by_cases hmod : ((s.import_counter + 1 : Nat) : Int) % fi = 0
    · right
      rw [if_pos hmod]
      exact ⟨rfl, rfl⟩
    · left
      rw [if_neg hmod]
      exact ⟨rfl, rfl⟩
  · simp [getEvent, List.getD_eq_getElem?_getD, List.getElem?_set_self hr]

/-- Witness for the amended C4 with a truthy `lang` field. -/
theorem import_event_script_doc_payload_witness :
    (getEvent [[(PyStr.text "lang", PyStr.text "painless")]] 0 ≠ [] ∧
      normalize_event
          (getEvent [[(PyStr.text "lang", PyStr.text "painless")]] 0) =
        .ok [(PyStr.text "lang", PyStr.text "painless")] ∧
      optStrTruthy (some (PyStr.text "x")) = true ∧ (10 : Int) ≠ 0) ∧
    (∃ heap' s',
      import_event [[(PyStr.text "lang", PyStr.text "painless")]]
          freshStore (PyStr.text "i") (some 0) (some (PyStr.text "x")) 10 =
        .ok (heap', s', freshStore.import_counter + 1) ∧
      appendedPair freshStore s'
        (Entry.updateHeader (PyStr.text "i") (some (PyStr.text "x")))
        (if optStrTruthy
            (dictGet [(PyStr.text "lang", PyStr.text "painless")]
              (PyStr.text "lang")) = true
         then Entry.script 0 else Entry.doc 0) ∧
      getEvent heap' 0 = [(PyStr.text "lang", PyStr.text "painless")]) :=
  ⟨⟨by decide, rfl, by decide, by decide⟩,
   import_event_script_doc_payload
     [[(PyStr.text "lang", PyStr.text "painless")]] freshStore
     (PyStr.text "i") 0 (some (PyStr.text "x")) 10
     [(PyStr.text "lang", PyStr.text "painless")] (by decide) rfl
     (by decide) (by decide)⟩

